import Mathlib

/-!
Shallow embedding of PillPilot's dose-scheduling core.

Sources embedded here:
  * `src/src/services/DatabaseService.ts`   — persistence gateway (regimen patch update,
    dose-event append, lookups);
  * `src/src/theme/theme.ts`                — `MealTimingService` (`calculateMedicationTime`
    clamping, `generateRegimenBaseSchedule`);
  * `src/unnamed/part_007`                  — `NextPillService` (`markPillTaken`,
    `calculateNextDoseForRegimen`, `calculateIntervalBasedNextDose`,
    `calculateTimesPerDayNextDose`, `getTodaysPills`, `scheduleNextNotifications`)
    and `NotificationService` (method inventory);
  * `src/unnamed/part_008`                  — `SchedulingService.shouldTakeOnDate`.

Modelling conventions:
  * JavaScript `Date` values are epoch milliseconds; JS numbers are modelled as exact
    rationals (`ℚ`), days are idealized as exact 24-hour spans (no DST), so
    `setHours(0,0,0,0)` is flooring to a multiple of 86400000 and `getHours()` is
    `⌊t / 3600000⌋ mod 24`.
  * ISO-8601 date strings stored in SQLite round-trip losslessly through `new Date(...)`,
    so stored timestamps are modelled directly as `ℚ` milliseconds.
  * Randomly generated row ids (`generateUUID`) and `createdAt` stamps of appended rows
    are not modelled: no claim mentions them.
  * Human-readable `reason` annotation strings and notification title/body copy are not
    modelled: no claim mentions them.
  * HH:mm clock-time strings (`earliestTime`, `latestTime`, meal preferences) are modelled
    already parsed, as an (hour, minute) pair, which is what `split(':').map(Number)`
    produces from them at every use site.
-/

namespace PillPilot

/-- JS epoch milliseconds, modelled as exact rationals. -/
abbrev Time := ℚ

def msPerMinute : Time := 60000

def msPerHour : Time := 3600000

def msPerDay : Time := 86400000

/-- `date.setHours(0, 0, 0, 0)` / `new Date(y, m, d)`: start of the civil day containing
`t`, with days idealized as exact 24-hour spans. -/
def startOfDay (t : Time) : Time := msPerDay * (⌊t / msPerDay⌋ : ℤ)

/-- `date.setHours(23, 59, 59, 999)`: end of the civil day containing `t`. -/
def endOfDayOf (t : Time) : Time := startOfDay t + 86399999

/-- `date.getHours()` under the idealized 24-hour-day clock. -/
def hourOfDay (t : Time) : ℤ := ⌊t / msPerHour⌋ % 24

/-- `Regimen.frequency` (src/unnamed/part_002). -/
inductive Frequency where
  | daily
  | weekly
  | cycles
  | interval
  | timesPerDay
deriving DecidableEq

/-- `DoseEvent.status` (src/unnamed/part_002). -/
inductive DoseStatus where
  | scheduled
  | taken
  | skipped
  | missed
deriving DecidableEq

/-- `Constraints.anchor` (src/unnamed/part_002). -/
inductive Anchor where
  | meal
  | clock
deriving DecidableEq

/-- `Medication` (src/unnamed/part_002); create/update stamps omitted (no claim uses them). -/
structure Medication where
  id : String
  name : String
  form : String
  strength : Option String
  notes : Option String
deriving DecidableEq

/-- `Regimen` (src/unnamed/part_002). `daysOfWeek` is the stored list of strings
(JSON-decoded). -/
structure Regimen where
  id : String
  medicationId : String
  doseAmount : String
  frequency : Frequency
  daysOfWeek : Option (List String)
  intervalHours : Option ℚ
  timesPerDay : Option ℕ
  startDate : Time
  endDate : Option Time
  prn : Bool
  prnMaxPerDay : Option ℕ
  lastTakenAt : Option Time
  createdAt : Time
  updatedAt : Time
deriving DecidableEq

/-- `Constraints` (src/unnamed/part_002); `earliestTime`/`latestTime` are HH:mm values,
modelled parsed as (hour, minute). -/
structure Constraints where
  id : String
  regimenId : String
  withFood : Bool
  noFoodBeforeMinutes : Option ℕ
  afterFoodMinutes : Option ℕ
  avoidWith : Option (List String)
  spacingHours : Option ℚ
  earliestTime : Option (ℕ × ℕ)
  latestTime : Option (ℕ × ℕ)
  quietHours : Bool
  anchor : Anchor
deriving DecidableEq

/-- `DoseEvent` (src/unnamed/part_002); the random row id and `createdAt` stamp are
omitted (no claim uses them). -/
structure DoseEvent where
  regimenId : String
  scheduledAt : Time
  takenAt : Option Time
  status : DoseStatus
  reason : Option String
deriving DecidableEq

/-- `UserPrefs` meal-time preferences (src/unnamed/part_002), HH:mm values modelled
parsed; the remaining columns play no role in any claim. -/
structure UserPrefs where
  breakfastTime : ℕ × ℕ
  lunchTime : ℕ × ℕ
  dinnerTime : ℕ × ℕ
  snackTime : ℕ × ℕ
deriving DecidableEq

/-- The SQLite store of `DatabaseService` (src/src/services/DatabaseService.ts), one
field per table used by the claims. -/
structure DB where
  medications : List Medication
  regimens : List Regimen
  constraints : List Constraints
  doseEvents : List DoseEvent
  userPrefs : Option UserPrefs
deriving DecidableEq

/-- The methods the `DatabaseService` class actually defines
(src/src/services/DatabaseService.ts). `NextPillService.scheduleNextNotifications`
calls `databaseService.getRegimen`, which is NOT in this list: at runtime that member
access yields `undefined` and the call raises a TypeError. -/
def databaseServiceMethods : List String :=
  ["init", "isInitialized", "getDatabase",
   "saveMedication", "getMedication", "getAllMedications", "updateMedication",
   "deleteMedication",
   "saveRegimen", "getRegimensByMedication", "deleteRegimen", "updateRegimen",
   "saveConstraints", "getConstraintsByRegimen",
   "saveMealEvent", "getMealEventsForDate",
   "saveDoseEvent", "getDoseEventsForDate",
   "saveUserPrefs", "getUserPrefs", "updateUserPrefs"]

/-- The methods the `NotificationService` class actually defines (src/unnamed/part_007).
`NextPillService.scheduleNextNotifications` calls
`notificationService.scheduleNotification`, which is NOT in this list either. -/
def notificationServiceMethods : List String :=
  ["init", "scheduleMedicationReminder", "scheduleMealReminder",
   "scheduleCountdownTimer", "scheduleFoodTimingReminder", "scheduleSpacingReminder",
   "cancelNotification", "cancelAllNotifications", "getPendingNotifications",
   "scheduleRollingNotifications", "handleNotificationResponse",
   "scheduleCanEatNotification", "scheduleTakeBeforeMealNotification",
   "scheduleNextDoseNotification", "scheduleMealTimeNotifications"]

/-- `DatabaseService.getAllMedications`. (The source orders rows by name; row order is
irrelevant to every claim, so the stored order is returned.) -/
def getAllMedications (db : DB) : List Medication := db.medications

/-- `DatabaseService.getRegimensByMedication` (`SELECT * FROM regimens WHERE
medicationId = ?`; the `ORDER BY startDate` is irrelevant to every claim). -/
def getRegimensByMedication (db : DB) (medicationId : String) : List Regimen :=
  db.regimens.filter (fun r => r.medicationId == medicationId)

/-- `DatabaseService.getConstraintsByRegimen` (`SELECT * FROM constraints WHERE
regimenId = ?`). -/
def getConstraintsByRegimen (db : DB) (regimenId : String) : List Constraints :=
  db.constraints.filter (fun c => c.regimenId == regimenId)

/-- `DatabaseService.getMedication` (`SELECT * FROM medications WHERE id = ?`, first
row or null). -/
def getMedication (db : DB) (id : String) : Option Medication :=
  db.medications.find? (fun m => m.id == id)

/-- The sparse field set accepted by `DatabaseService.updateRegimen`
(`Partial<Omit<Regimen, 'id' | 'createdAt' | 'updatedAt' | 'medicationId'>>`):
`none` = field absent from the patch (`updates.x !== undefined` fails), `some` =
field present. -/
structure RegimenPatch where
  doseAmount : Option String
  frequency : Option Frequency
  daysOfWeek : Option (List String)
  intervalHours : Option ℚ
  timesPerDay : Option ℕ
  startDate : Option Time
  endDate : Option Time
  prn : Option Bool
  prnMaxPerDay : Option ℕ
  lastTakenAt : Option Time
deriving DecidableEq

/-- `sets.length === 0` in `DatabaseService.updateRegimen`: the `sets` array is empty
exactly when every mutable field is absent from the patch. -/
def RegimenPatch.isEmpty (p : RegimenPatch) : Bool :=
  p.doseAmount.isNone && p.frequency.isNone && p.daysOfWeek.isNone &&
  p.intervalHours.isNone && p.timesPerDay.isNone && p.startDate.isNone &&
  p.endDate.isNone && p.prn.isNone && p.prnMaxPerDay.isNone && p.lastTakenAt.isNone

/-- The all-absent patch. -/
def emptyRegimenPatch : RegimenPatch :=
  { doseAmount := none, frequency := none, daysOfWeek := none, intervalHours := none,
    timesPerDay := none, startDate := none, endDate := none, prn := none,
    prnMaxPerDay := none, lastTakenAt := none }

/-- The patch `{ lastTakenAt: takenAt }` passed by `NextPillService.markPillTaken`. -/
def lastTakenPatch (takenAt : Time) : RegimenPatch :=
  { emptyRegimenPatch with lastTakenAt := some takenAt }

/-- `DatabaseService.updateRegimen`, effect on the matched row: one conditional
`SET` assignment per provided field, then `updatedAt = ?`; when the `sets` list is
empty the function returns before issuing any SQL, leaving the row (including
`updatedAt`) untouched. -/
def applyUpdateRegimen (row : Regimen) (p : RegimenPatch) (now : Time) : Regimen :=
  if p.isEmpty then row
  else
    let r := match p.doseAmount with
      | some v => { row with doseAmount := v }
      | none => row
    let r := match p.frequency with
      | some v => { r with frequency := v }
      | none => r
    let r := match p.daysOfWeek with
      | some v => { r with daysOfWeek := some v }
      | none => r
    let r := match p.intervalHours with
      | some v => { r with intervalHours := some v }
      | none => r
    let r := match p.timesPerDay with
      | some v => { r with timesPerDay := some v }
      | none => r
    let r := match p.startDate with
      | some v => { r with startDate := v }
      | none => r
    let r := match p.endDate with
      | some v => { r with endDate := some v }
      | none => r
    let r := match p.prn with
      | some v => { r with prn := v }
      | none => r
    let r := match p.prnMaxPerDay with
      | some v => { r with prnMaxPerDay := some v }
      | none => r
    let r := match p.lastTakenAt with
      | some v => { r with lastTakenAt := some v }
      | none => r
    { r with updatedAt := now }

/-- `DatabaseService.updateRegimen` on the store (`UPDATE regimens SET ... WHERE
id = ?`). -/
def updateRegimen (db : DB) (id : String) (p : RegimenPatch) (now : Time) : DB :=
  { db with regimens := db.regimens.map (fun r =>
      if r.id == id then applyUpdateRegimen r p now else r) }

/-- `DatabaseService.saveDoseEvent` (`INSERT INTO dose_events ...`): appends one row. -/
def saveDoseEvent (db : DB) (event : DoseEvent) : DB :=
  { db with doseEvents := db.doseEvents ++ [event] }

/-- The `lastTakenAt` column of the regimen row with the given id. -/
def lastTakenAtOf (db : DB) (id : String) : Option Time :=
  (db.regimens.find? (fun r => r.id == id)).bind (fun r => r.lastTakenAt)

/-- The `while (base <= endOfDay) { push(base); base += intervalHours * 3600000 }` loop
of `MealTimingService.generateRegimenBaseSchedule` (src/src/theme/theme.ts). The
positivity of the step — guaranteed at the single call site by the branch guard
`regimen.intervalHours > 0` — is threaded into the loop condition so that the loop
terminates. -/
def intervalInstants (step dayEnd base : Time) : List Time :=
  if h : base ≤ dayEnd ∧ 0 < step then
    base :: intervalInstants step dayEnd (base + step)
  else []
termination_by (⌊(dayEnd - base) / step⌋ + 1).toNat
decreasing_by
  obtain ⟨h1, h2⟩ := h
  have hne : step ≠ 0 := ne_of_gt h2
  have e1 : dayEnd - (base + step) = dayEnd - base - step := by ring
  rw [e1, sub_div, div_self hne, Int.floor_sub_one]
  have hfl : (0 : ℤ) ≤ ⌊(dayEnd - base) / step⌋ :=
    Int.floor_nonneg.mpr (div_nonneg (by linarith) (le_of_lt h2))
  omega

/-- `MealTimingService.generateRegimenBaseSchedule` (src/src/theme/theme.ts): the base
candidate dose instants for the day containing `date`. (The returned records also
carry id/dose/reason annotations; only the `scheduledTime` instants are modelled — no
claim mentions the annotations.) -/
def generateRegimenBaseSchedule (regimen : Regimen) (date : Time) : List Time :=
  let dayStart := startOfDay date
  let dayEnd := dayStart + 86399999
  if regimen.frequency = Frequency.interval ∧ 0 < regimen.intervalHours.getD 0 then
    -- Start from lastTakenAt or start of day
    let base := match regimen.lastTakenAt with
      | some lastTaken => if dayStart < lastTaken then lastTaken else dayStart
      | none => dayStart
    intervalInstants (regimen.intervalHours.getD 0 * msPerHour) dayEnd base
  else if regimen.frequency = Frequency.timesPerDay ∧ 0 < regimen.timesPerDay.getD 0 then
    -- Evenly distribute across the day between 07:00 and 22:00
    let startHour : ℚ := 7
    let endHour : ℚ := 22
    let windowMs := (endHour - startHour) * msPerHour
    let step := windowMs / (regimen.timesPerDay.getD 0 : ℕ)
    (List.range (regimen.timesPerDay.getD 0)).map
      (fun (i : ℕ) => dayStart + startHour * msPerHour + (i : ℚ) * step)
  else []

/-- The clock time `(hh, mm)` placed on the day containing `date`
(`new Date(y, m, d, hours, minutes, 0, 0)`). -/
def clockTimeOn (date : Time) (hm : ℕ × ℕ) : Time :=
  startOfDay date + hm.1 * msPerHour + hm.2 * msPerMinute

/-- The `constraints.earliestTime` pass of `MealTimingService.calculateMedicationTime`:
any candidate earlier than the bound is moved up to it. -/
def clampToEarliest (c : Constraints) (date : Time) (t : Time) : Time :=
  match c.earliestTime with
  | none => t
  | some hm => if t < clockTimeOn date hm then clockTimeOn date hm else t

/-- The `constraints.latestTime` pass of `MealTimingService.calculateMedicationTime`:
any candidate later than the bound is moved down to it. -/
def clampToLatest (c : Constraints) (date : Time) (t : Time) : Time :=
  match c.latestTime with
  | none => t
  | some hm => if clockTimeOn date hm < t then clockTimeOn date hm else t

/-- The earliest/latest clamping step of `MealTimingService.calculateMedicationTime`
as applied to one candidate time (the source runs the earliest pass over the whole
candidate list and then the latest pass; per candidate that is this composition). -/
def applyTimeClamps (c : Constraints) (date : Time) (t : Time) : Time :=
  clampToLatest c date (clampToEarliest c date t)

/-- The resolved meal times handed to `calculateMedicationTime`. -/
structure MealTiming where
  breakfast : Time
  lunch : Time
  dinner : Time
  snack : Time
deriving DecidableEq

/-- The first-occurrence deduplication
`schedules.filter((s, i, self) => i === self.findIndex(x => x.getTime() === s.getTime()))`. -/
def dedupFirstAux (seen : List Time) : List Time → List Time
  | [] => []
  | t :: ts => if t ∈ seen then dedupFirstAux seen ts else t :: dedupFirstAux (t :: seen) ts

/-- First-occurrence deduplication of candidate instants. -/
def dedupFirst (ts : List Time) : List Time := dedupFirstAux [] ts

/-- `MealTimingService.calculateMedicationTime` (src/src/theme/theme.ts): candidate
instants from the food rules, then the earliest/latest clamp passes, then
first-occurrence dedup and ascending sort. Only the instants are modelled (the
records also carry reason annotations no claim mentions). -/
def calculateMedicationTime (c : Constraints) (mealTimes : MealTiming) (date : Time) :
    List Time :=
  let withFoodTimes :=
    if c.withFood then [mealTimes.breakfast, mealTimes.lunch, mealTimes.dinner] else []
  let beforeTimes := match c.noFoodBeforeMinutes with
    | some m =>
        if m = 0 then []  -- 0 is falsy in `if (constraints.noFoodBeforeMinutes)`
        else [mealTimes.breakfast - m * msPerMinute, mealTimes.lunch - m * msPerMinute,
              mealTimes.dinner - m * msPerMinute]
    | none => []
  let afterTimes := match c.afterFoodMinutes with
    | some m =>
        if m = 0 then []
        else [mealTimes.breakfast + m * msPerMinute, mealTimes.lunch + m * msPerMinute,
              mealTimes.dinner + m * msPerMinute]
    | none => []
  let schedules := withFoodTimes ++ beforeTimes ++ afterTimes
  let clamped := (schedules.map (clampToEarliest c date)).map (clampToLatest c date)
  (dedupFirst clamped).mergeSort (fun a b => decide (a ≤ b))

/-- The `dayNames` table of `SchedulingService.shouldTakeOnDate` (src/unnamed/part_008),
indexed by `date.getDay()`. -/
def dayNames : List String :=
  ["sunday", "monday", "tuesday", "wednesday", "thursday", "friday", "saturday"]

/-- `SchedulingService.shouldTakeOnDate` (src/unnamed/part_008): eligibility of a
regimen on a date, given the date's weekday index `date.getDay()` (0 = Sunday). -/
def shouldTakeOnDate (regimen : Regimen) (dayOfWeek : Fin 7) : Bool :=
  if regimen.frequency = Frequency.daily then true
  else if regimen.frequency = Frequency.weekly then
    match regimen.daysOfWeek with
    | some days => days.contains (dayNames.getD dayOfWeek.val "")
    | none => false
  else false

/-- The `mealConstraints` record built by `NextPillService.checkMealConstraints`
(src/unnamed/part_007). -/
structure MealConstraintsInfo where
  needsFood : Bool
  waitAfterFood : Option ℕ
  waitBeforeFood : Option ℕ
  nextMealTime : Option Time
deriving DecidableEq

/-- The `NextPillCalculation` record of `NextPillService` (src/unnamed/part_007);
the `reason` annotation string is not modelled (no claim mentions it). -/
structure NextPillCalculation where
  regimenId : String
  medicationName : String
  doseAmount : String
  nextDueTime : Time
  intervalHours : Option ℚ
  timesPerDay : Option ℕ
  lastTakenAt : Option Time
  isOverdue : Bool
  minutesOverdue : Option ℤ
  canTakeNow : Bool
  mealConstraints : Option MealConstraintsInfo
deriving DecidableEq

/-- `NextPillService.calculateIntervalBasedNextDose`: `lastTakenAt + intervalHours`
when both are truthy (a `Date` is always truthy; the number 0 is falsy), else the
fallback `new Date()` = `now`. -/
def calculateIntervalBasedNextDose (regimen : Regimen) (now : Time) : Time :=
  match regimen.lastTakenAt, regimen.intervalHours with
  | some lastTaken, some intervalHours =>
      if intervalHours = 0 then now  -- `!regimen.intervalHours`: 0 is falsy
      else lastTaken + intervalHours * msPerHour
  | _, _ => now  -- fallback to current time if no data

/-- `NextPillService.calculateTimesPerDayNextDose`: the first slot
`wakeTime + i * (awakeHours / timesPerDay)` strictly after the current hour, or
tomorrow's wake time when every slot has passed. The `for`/`break` search is the
first hit over `i = 0 .. timesPerDay - 1`; `setHours(Math.floor(h), (h % 1) * 60)`
reconstructs the fractional hour on the current day. -/
def calculateTimesPerDayNextDose (timesPerDay : ℕ) (fromTime : Time) : Time :=
  let wakeTime : ℚ := 7
  let sleepTime : ℚ := 22
  let awakeHours := sleepTime - wakeTime
  let intervalHours := awakeHours / (timesPerDay : ℕ)
  let currentHour : ℚ := (hourOfDay fromTime : ℤ)
  let nextHour : ℚ :=
    match (List.range timesPerDay).find?
        (fun (i : ℕ) => decide (currentHour < wakeTime + (i : ℚ) * intervalHours)) with
    | some i => wakeTime + (i : ℚ) * intervalHours
    | none => wakeTime
  if nextHour ≤ currentHour then
    -- If past all doses for today, start tomorrow
    startOfDay fromTime + msPerDay + wakeTime * msPerHour
  else
    startOfDay fromTime + (⌊nextHour⌋ : ℤ) * msPerHour
      + (nextHour - (⌊nextHour⌋ : ℤ)) * 60 * msPerMinute

/-- `NextPillService.calculateInitialDoseTime`: times-per-day regimens use the day
schedule; interval regimens (and everything else) start `now`. The `constraints`
argument is accepted and unused, as in the source. -/
def calculateInitialDoseTime (regimen : Regimen) (constraints : List Constraints)
    (now : Time) : Time :=
  match regimen.timesPerDay with
  | some timesPerDay =>
      if timesPerDay = 0 then now  -- `if (regimen.timesPerDay)`: 0 is falsy
      else calculateTimesPerDayNextDose timesPerDay now
  | none => now

/-- `NextPillService.checkMealConstraints`: the first constraint with a food rule
decides; without stored user preferences the result is null; otherwise the record
echoes the proposed time as `nextMealTime` (the source comment says "Simplified"). -/
def checkMealConstraints (db : DB) (constraints : List Constraints)
    (proposedTime : Time) : Option MealConstraintsInfo :=
  match constraints.find? (fun c =>
      c.withFood || !(c.noFoodBeforeMinutes.getD 0 == 0)
        || !(c.afterFoodMinutes.getD 0 == 0)) with
  | none => none
  | some c =>
      match db.userPrefs with
      | none => none
      | some _ =>
          some { needsFood := c.withFood, waitAfterFood := c.afterFoodMinutes,
                 waitBeforeFood := c.noFoodBeforeMinutes,
                 nextMealTime := some proposedTime }

/-- `NextPillService.canTakeNow`: false only while an interval regimen's
`lastTakenAt + intervalHours` has not yet elapsed. -/
def canTakeNow (regimen : Regimen) (constraints : List Constraints) (now : Time) :
    Bool :=
  match regimen.lastTakenAt, regimen.intervalHours with
  | some lastTaken, some intervalHours =>
      if intervalHours = 0 then true  -- `regimen.intervalHours` falsy: skip the check
      else if now < lastTaken + intervalHours * msPerHour then false
      else true
  | _, _ => true

/-- `NextPillService.calculateNextDoseForRegimen` (src/unnamed/part_007): never-taken
regimens use the initial-dose logic, previously-taken regimens the interval-based
logic; the meal-constraint record (when produced) overrides the due time with its
`nextMealTime`. -/
def calculateNextDoseForRegimen (db : DB) (medication : Medication)
    (regimen : Regimen) (now : Time) : NextPillCalculation :=
  let constraints := getConstraintsByRegimen db regimen.id
  let nextDueTime0 :=
    if regimen.lastTakenAt.isNone then calculateInitialDoseTime regimen constraints now
    else calculateIntervalBasedNextDose regimen now
  let mealConstraints := checkMealConstraints db constraints nextDueTime0
  let nextDueTime :=
    match mealConstraints with
    | some mc =>
        match mc.nextMealTime with
        | some t => t
        | none => nextDueTime0
    | none => nextDueTime0
  let isOverdue := decide (nextDueTime < now)
  { regimenId := regimen.id, medicationName := medication.name,
    doseAmount := regimen.doseAmount, nextDueTime := nextDueTime,
    intervalHours := regimen.intervalHours, timesPerDay := regimen.timesPerDay,
    lastTakenAt := regimen.lastTakenAt, isOverdue := isOverdue,
    minutesOverdue := if isOverdue then some ⌊(now - nextDueTime) / msPerMinute⌋
      else none,
    canTakeNow := canTakeNow regimen constraints now,
    mealConstraints := mealConstraints }

/-- The computed next-due time of `calculateNextDoseForRegimen`. -/
def nextDueTimeOf (db : DB) (medication : Medication) (regimen : Regimen)
    (now : Time) : Time :=
  (calculateNextDoseForRegimen db medication regimen now).nextDueTime

/-- `NextPillService.getTodaysPills` (src/unnamed/part_007): every regimen's
calculation with `nextDueTime <= endOfDay`, sorted ascending by due time. -/
def getTodaysPills (db : DB) (now : Time) : List NextPillCalculation :=
  let endOfDay := endOfDayOf now
  let calculations := (getAllMedications db).flatMap (fun medication =>
    ((getRegimensByMedication db medication.id).map (fun regimen =>
        calculateNextDoseForRegimen db medication regimen now)).filter
      (fun c => decide (c.nextDueTime ≤ endOfDay)))
  calculations.mergeSort (fun a b => decide (a.nextDueTime ≤ b.nextDueTime))

/-- A follow-on notification request as assembled by
`NextPillService.scheduleNextNotifications` (the human-readable title/body copy is
not modelled; the `data` payload fields are). -/
structure NotificationRequest where
  id : String
  scheduledFor : Time
  dataRegimenId : String
  dataType : String
deriving DecidableEq

/-- The externally visible steps of `NextPillService.markPillTaken`, in program
order: the two persistence-gateway writes and any notification scheduling. -/
inductive Effect where
  | persistRegimenUpdate (regimenId : String) (patch : RegimenPatch)
  | persistDoseEvent (event : DoseEvent)
  | notify (request : NotificationRequest)
deriving DecidableEq

/-- Whether an effect is a notification-scheduling call. -/
def Effect.isNotify : Effect → Bool
  | .notify _ => true
  | _ => false

/-- Modelled from the spec: `databaseService.getRegimen(regimenId)` as called by
`NextPillService.scheduleNextNotifications`. The `DatabaseService` class
(src/src/services/DatabaseService.ts) defines no such method; §4.1 of the spec
(typed CRUD over the entities) implies fetching the one regimen row by id. -/
def getRegimenModelled (db : DB) (id : String) : Option Regimen :=
  db.regimens.find? (fun r => r.id == id)

/-- The body of `NextPillService.scheduleNextNotifications` (src/unnamed/part_007,
lines 297-335) as intended: fetch regimen and medication, then request a next-dose
notification at `takenAt + intervalHours` when `intervalHours` is truthy, and a
can-eat notification at `takenAt + afterFoodMinutes` for each constraint whose
`afterFoodMinutes` is truthy. This is the counterfactual in which the two missing
collaborator methods (`databaseService.getRegimen`,
`notificationService.scheduleNotification`) exist. -/
def scheduleNextNotificationsIntended (db : DB) (regimenId : String)
    (takenAt : Time) : List Effect :=
  match getRegimenModelled db regimenId with
  | none => []
  | some regimen =>
      match getMedication db regimen.medicationId with
      | none => []
      | some _medication =>
          let constraints := getConstraintsByRegimen db regimenId
          let nextDoseRequests := match regimen.intervalHours with
            | some h =>
                if h = 0 then []  -- `if (regimen.intervalHours)`: 0 is falsy
                else [Effect.notify
                  { id := "next-dose-" ++ regimenId,
                    scheduledFor := takenAt + h * msPerHour,
                    dataRegimenId := regimenId, dataType := "next_dose" }]
            | none => []
          let canEatRequests := constraints.flatMap (fun c =>
            match c.afterFoodMinutes with
            | some m =>
                if m = 0 then []
                else [Effect.notify
                  { id := "can-eat-" ++ regimenId,
                    scheduledFor := takenAt + m * msPerMinute,
                    dataRegimenId := regimenId, dataType := "can_eat" }]
            | none => [])
          nextDoseRequests ++ canEatRequests

/-- `NextPillService.scheduleNextNotifications` as it actually executes: its first
statement calls `databaseService.getRegimen`, a method the `DatabaseService` class
does not define, so the call raises a TypeError that the function's own
`try`/`catch` swallows — no notification is ever requested. -/
def scheduleNextNotificationsEffects (db : DB) (regimenId : String)
    (takenAt : Time) : List Effect :=
  if databaseServiceMethods.contains "getRegimen" then
    scheduleNextNotificationsIntended db regimenId takenAt
  else []

/-- `NextPillService.markPillTaken` (src/unnamed/part_007): update the regimen's
`lastTakenAt`, append the taken dose event, then schedule follow-on notifications.
Returns the new store and the effect trace in program order (`now` is the clock
value stamped as `updatedAt` by the regimen update). -/
def markPillTaken (db : DB) (regimenId : String) (takenAt : Time) (now : Time) :
    DB × List Effect :=
  let patch := lastTakenPatch takenAt
  let db1 := updateRegimen db regimenId patch now
  let event : DoseEvent :=
    { regimenId := regimenId, scheduledAt := takenAt, takenAt := some takenAt,
      status := DoseStatus.taken, reason := some "user-marked" }
  let db2 := saveDoseEvent db1 event
  let notifyEffects := scheduleNextNotificationsEffects db2 regimenId takenAt
  (db2, [Effect.persistRegimenUpdate regimenId patch, Effect.persistDoseEvent event]
    ++ notifyEffects)

/-! Concrete fixtures used by witnesses and counterexamples. -/

/-- A default regimen record, specialised by each fixture. -/
def baseRegimen : Regimen :=
  { id := "r0", medicationId := "m0", doseAmount := "1",
    frequency := Frequency.daily, daysOfWeek := none, intervalHours := none,
    timesPerDay := none, startDate := 0, endDate := none, prn := false,
    prnMaxPerDay := none, lastTakenAt := none, createdAt := 0, updatedAt := 0 }

/-- A default constraints record, specialised by each fixture. -/
def baseConstraints : Constraints :=
  { id := "c0", regimenId := "r0", withFood := false, noFoodBeforeMinutes := none,
    afterFoodMinutes := none, avoidWith := none, spacingHours := none,
    earliestTime := none, latestTime := none, quietHours := false,
    anchor := Anchor.clock }

/-- A default medication record. -/
def baseMedication : Medication :=
  { id := "m0", name := "Med", form := "tablet", strength := none, notes := none }

/-- Interval regimen, every 8 hours, never taken (C1 witness). -/
def regC1 : Regimen :=
  { baseRegimen with
    id := "r1", medicationId := "m1",
    frequency := Frequency.interval, intervalHours := some 8 }

/-- Store holding only `regC1` (C1 witness). -/
def dbC1 : DB :=
  { medications := [{ baseMedication with id := "m1" }], regimens := [regC1],
    constraints := [], doseEvents := [], userPrefs := none }

/-- Interval regimen, every 6 hours, never taken (C2 witness). -/
def regC2 : Regimen :=
  { baseRegimen with
    frequency := Frequency.interval, intervalHours := some 6 }

/-- Interval regimen, every 6 hours, last taken two days after epoch — after the end
of target day 0 (C2 counterexample). -/
def regC2Late : Regimen :=
  { regC2 with lastTakenAt := some 172800000 }

/-- Times-per-day regimen, three times a day (C3 witness). -/
def regC3 : Regimen :=
  { baseRegimen with
    frequency := Frequency.timesPerDay, timesPerDay := some 3 }

/-- Weekly regimen whose `daysOfWeek` holds all seven weekday-index strings, exactly
as `AddRegimenScreen` stores them when every day is toggled (C4 failing input). -/
def regC4AllIdx : Regimen :=
  { baseRegimen with
    frequency := Frequency.weekly,
    daysOfWeek := some ["0", "1", "2", "3", "4", "5", "6"] }

/-- Weekly regimen whose `daysOfWeek` holds a weekday NAME — the only kind of value
`shouldTakeOnDate` can ever match, which no producer in the app writes (C4). -/
def regC4Name : Regimen :=
  { baseRegimen with
    frequency := Frequency.weekly, daysOfWeek := some ["sunday"] }

/-- Interval regimen, every 8 hours, with an after-food constraint (C5 failing
input). -/
def regC5 : Regimen :=
  { baseRegimen with
    id := "r1", medicationId := "m1",
    frequency := Frequency.interval, intervalHours := some 8 }

/-- Store for the C5 failing input: one medication, `regC5`, one constraint with
`afterFoodMinutes = 30`. -/
def dbC5 : DB :=
  { medications := [{ baseMedication with id := "m1" }], regimens := [regC5],
    constraints := [{ baseConstraints with
      id := "c1", regimenId := "r1", afterFoodMinutes := some 30 }],
    doseEvents := [], userPrefs := none }

/-- Times-per-day regimen (3x/day) that HAS been taken, with no `intervalHours`
(C6 counterexample). -/
def regC6 : Regimen :=
  { baseRegimen with
    id := "r1", medicationId := "m1",
    frequency := Frequency.timesPerDay, timesPerDay := some 3,
    lastTakenAt := some 0 }

/-- Store holding only `regC6` (C6 counterexample). -/
def dbC6 : DB :=
  { medications := [{ baseMedication with id := "m1" }], regimens := [regC6],
    constraints := [], doseEvents := [], userPrefs := none }

/-- Interval regimen, every 1 hour, last taken at epoch: at `now` = 02:00 its due
time 01:00 is already in the past (C7 counterexample). -/
def regC7 : Regimen :=
  { baseRegimen with
    id := "r1", medicationId := "m1",
    frequency := Frequency.interval, intervalHours := some 1, lastTakenAt := some 0 }

/-- Store holding only `regC7` (C7 counterexample). -/
def dbC7 : DB :=
  { medications := [{ baseMedication with id := "m1" }], regimens := [regC7],
    constraints := [], doseEvents := [], userPrefs := none }

/-- Interval regimen last taken at t = 1000 (C8). -/
def regC8 : Regimen :=
  { baseRegimen with
    id := "r8", medicationId := "m1",
    frequency := Frequency.interval, intervalHours := some 8,
    lastTakenAt := some 1000 }

/-- Store holding only `regC8` (C8). -/
def dbC8 : DB :=
  { medications := [{ baseMedication with id := "m1" }], regimens := [regC8],
    constraints := [], doseEvents := [], userPrefs := none }

/-! ## Helper lemmas -/

theorem rangeMap_succ (step base : Time) (m : ℕ) :
    (List.range (m + 1)).map (fun (i : ℕ) => base + (i : ℚ) * step)
      = base :: (List.range m).map (fun (i : ℕ) => (base + step) + (i : ℚ) * step) := by
  rw [List.range_succ_eq_map]
  rw [List.map_cons, List.map_map]
  congr 1
  · push_cast
    ring
  · apply List.map_congr_left
    intro i _
    simp only [Function.comp_apply]
    push_cast
    ring

theorem intervalInstants_of_rangeMap (step dayEnd : Time) (hstep : 0 < step) :
    ∀ (n : ℕ) (base : Time), (⌊(dayEnd - base) / step⌋ + 1).toNat = n →
      intervalInstants step dayEnd base =
        (List.range n).map (fun (i : ℕ) => base + (i : ℚ) * step) := by
  intro n
  induction n with
  | zero =>
      intro base hn
      have hneg : ⌊(dayEnd - base) / step⌋ < 0 := by omega
      have hbd : ¬ (base ≤ dayEnd) := by
        intro hle
        have h0 : (0 : ℚ) ≤ (dayEnd - base) / step := div_nonneg (by linarith) hstep.le
        exact absurd (Int.floor_nonneg.mpr h0) (by omega)
      rw [intervalInstants, dif_neg (by tauto)]
      rfl
  | succ n ih =>
      intro base hn
      have hfl : ⌊(dayEnd - base) / step⌋ = (n : ℤ) := by omega
      have hq0 : (0 : ℚ) ≤ (dayEnd - base) / step := by
        have h1 := Int.floor_le ((dayEnd - base) / step)
        rw [hfl] at h1
        have h2 : (0 : ℚ) ≤ ((n : ℤ) : ℚ) := by exact_mod_cast Int.natCast_nonneg n
        linarith
      have hbd : base ≤ dayEnd := by
        have h3 : (dayEnd - base) / step * step = dayEnd - base :=
          div_mul_cancel₀ _ (ne_of_gt hstep)
        nlinarith [mul_nonneg hq0 hstep.le]
      rw [intervalInstants, dif_pos ⟨hbd, hstep⟩]
      have hnext : (⌊(dayEnd - (base + step)) / step⌋ + 1).toNat = n := by
        have e1 : dayEnd - (base + step) = dayEnd - base - step := by ring
        rw [e1, sub_div, div_self (ne_of_gt hstep), Int.floor_sub_one, hfl]
        omega
      rw [ih (base + step) hnext, rangeMap_succ]

theorem intervalInstants_closed (step dayEnd base : Time) (hstep : 0 < step) :
    intervalInstants step dayEnd base =
      (List.range (⌊(dayEnd - base) / step⌋ + 1).toNat).map
        (fun (i : ℕ) => base + (i : ℚ) * step) :=
  intervalInstants_of_rangeMap step dayEnd hstep _ base rfl

theorem intervalInstants_head (step dayEnd base : Time) (hstep : 0 < step)
    (hle : base ≤ dayEnd) :
    (intervalInstants step dayEnd base).head? = some base := by
  rw [intervalInstants, dif_pos ⟨hle, hstep⟩]
  rfl

theorem intervalInstants_nil (step dayEnd base : Time) (hgt : dayEnd < base) :
    intervalInstants step dayEnd base = [] := by
  rw [intervalInstants, dif_neg]
  rintro ⟨h1, -⟩
  linarith

theorem chain'_rangeMap (step : Time) : ∀ (n : ℕ) (base : Time),
    List.Chain' (fun a b => b = a + step)
      ((List.range n).map (fun (i : ℕ) => base + (i : ℚ) * step)) := by
  intro n
  induction n with
  | zero => intro base; simp
  | succ m ih =>
      intro base
      rw [rangeMap_succ, List.chain'_cons']
      refine ⟨?_, ih (base + step)⟩
      intro b hb
      cases m with
      | zero => simp at hb
      | succ m2 =>
          rw [rangeMap_succ] at hb
          simp only [List.head?_cons, Option.mem_def, Option.some.injEq] at hb
          rw [← hb]

theorem generate_interval_eq (regimen : Regimen) (date : Time) (h : ℚ)
    (hfreq : regimen.frequency = Frequency.interval)
    (hih : regimen.intervalHours = some h) (hpos : 0 < h) :
    generateRegimenBaseSchedule regimen date =
      intervalInstants (h * msPerHour) (startOfDay date + 86399999)
        (match regimen.lastTakenAt with
         | some lastTaken =>
             if startOfDay date < lastTaken then lastTaken else startOfDay date
         | none => startOfDay date) := by
  simp only [generateRegimenBaseSchedule, hfreq, hih, Option.getD_some]
  rw [if_pos ⟨trivial, hpos⟩]

theorem generate_tpd_eq (regimen : Regimen) (date : Time) (k : ℕ)
    (hfreq : regimen.frequency = Frequency.timesPerDay)
    (htpd : regimen.timesPerDay = some k) (hk : 0 < k) :
    generateRegimenBaseSchedule regimen date =
      (List.range k).map (fun (i : ℕ) =>
        startOfDay date + 7 * msPerHour + (i : ℚ) * ((22 - 7) * msPerHour / (k : ℚ))) := by
  simp only [generateRegimenBaseSchedule, hfreq, htpd, Option.getD_some]
  rw [if_neg (by rintro ⟨h1, -⟩; exact absurd h1 (by simp)), if_pos ⟨trivial, hk⟩]

/-! ## Claim theorems -/

/-- C2 (amended): for an interval regimen with `intervalHours = h > 0` the instants
generated for a target day are successive steps exactly h hours apart; the first
instant is `lastTakenAt` when that falls within the target day (strictly after its
start, at or before its end), and start-of-day when `lastTakenAt` is unset or at or
before start-of-day; when `lastTakenAt` lies after the end of the target day, no
instants at all are generated (the claim's "start-of-day otherwise" fails there); in
particular for h = 6 and `lastTakenAt` unset exactly the 4 instants 00:00, 06:00,
12:00, 18:00 are generated. -/
theorem generateRegimenBaseSchedule_interval_spec (regimen : Regimen) (date : Time)
    (h : ℚ) (hfreq : regimen.frequency = Frequency.interval)
    (hih : regimen.intervalHours = some h) (hpos : 0 < h) :
    List.Chain' (fun a b => b = a + h * msPerHour)
        (generateRegimenBaseSchedule regimen date)
      ∧ (regimen.lastTakenAt = none →
          (generateRegimenBaseSchedule regimen date).head? = some (startOfDay date))
      ∧ (∀ lt, regimen.lastTakenAt = some lt → lt ≤ startOfDay date →
          (generateRegimenBaseSchedule regimen date).head? = some (startOfDay date))
      ∧ (∀ lt, regimen.lastTakenAt = some lt → startOfDay date < lt →
          lt ≤ startOfDay date + 86399999 →
          (generateRegimenBaseSchedule regimen date).head? = some lt)
      ∧ (∀ lt, regimen.lastTakenAt = some lt → startOfDay date + 86399999 < lt →
          generateRegimenBaseSchedule regimen date = [])
      ∧ (h = 6 → regimen.lastTakenAt = none →
          generateRegimenBaseSchedule regimen date =
            [startOfDay date, startOfDay date + 6 * msPerHour,
             startOfDay date + 12 * msPerHour, startOfDay date + 18 * msPerHour]) := by
  have hmph : (0 : ℚ) < msPerHour := by norm_num [msPerHour]
  have hstep : 0 < h * msPerHour := mul_pos hpos hmph
  rw [generate_interval_eq regimen date h hfreq hih hpos]
  refine ⟨?_, ?_, ?_, ?_, ?_, ?_⟩
  · rw [intervalInstants_closed _ _ _ hstep]
    exact chain'_rangeMap _ _ _
  · intro hnone
    simp only [hnone]
    exact intervalInstants_head _ _ _ hstep (by linarith)
  · intro lt hlt hle
    simp only [hlt]
    rw [if_neg (by linarith)]
    exact intervalInstants_head _ _ _ hstep (by linarith)
  · intro lt hlt h1 h2
    simp only [hlt]
    rw [if_pos h1]
    exact intervalInstants_head _ _ _ hstep h2
  · intro lt hlt h1
    simp only [hlt]
    rw [if_pos (by linarith)]
    exact intervalInstants_nil _ _ _ (by linarith)
  · intro h6 hnone
    subst h6
    simp only [hnone]
    rw [intervalInstants_closed _ _ _ hstep]
    have e : startOfDay date + 86399999 - startOfDay date = (86399999 : ℚ) := by ring
    rw [e]
    have hfl : ⌊(86399999 : ℚ) / (6 * msPerHour)⌋ = 3 := by
      rw [Int.floor_eq_iff] <;> norm_num [msPerHour]
    rw [hfl, show ((3 : ℤ) + 1).toNat = 4 from rfl,
      show List.range 4 = [0, 1, 2, 3] from rfl]
    simp only [List.map_cons, List.map_nil, List.cons.injEq, and_true]
    norm_num [msPerHour]

/-- C2 counterexample: for target day 0 and an interval regimen whose `lastTakenAt`
(two days after epoch) lies after the end of the target day, the generator emits no
instants at all, so the first generated instant is not start-of-day as the claim
states for every `lastTakenAt` outside the target day. -/
theorem generateRegimenBaseSchedule_interval_counterexample :
    generateRegimenBaseSchedule regC2Late 0 = []
      ∧ (generateRegimenBaseSchedule regC2Late 0).head? ≠ some (startOfDay 0) := by
  have h0 : startOfDay (0 : ℚ) = 0 := by norm_num [startOfDay, msPerDay]
  have he : generateRegimenBaseSchedule regC2Late 0 = [] := by
    rw [generate_interval_eq regC2Late 0 6 rfl rfl (by norm_num)]
    show intervalInstants (6 * msPerHour) (startOfDay 0 + 86399999)
      (if startOfDay 0 < 172800000 then (172800000 : ℚ) else startOfDay 0) = []
    rw [h0, if_pos (by norm_num)]
    exact intervalInstants_nil _ _ _ (by norm_num [msPerHour])
  refine ⟨he, ?_⟩
  rw [he]
  simp

/-- C2 witness: interval regimen with h = 6 and `lastTakenAt` unset generates, for
day 0, exactly the instants 00:00, 06:00, 12:00, 18:00. -/
theorem generateRegimenBaseSchedule_interval_spec_witness :
    regC2.frequency = Frequency.interval ∧ regC2.intervalHours = some 6
      ∧ (0 : ℚ) < 6 ∧ regC2.lastTakenAt = none
      ∧ generateRegimenBaseSchedule regC2 0 =
          [startOfDay 0, startOfDay 0 + 6 * msPerHour,
           startOfDay 0 + 12 * msPerHour, startOfDay 0 + 18 * msPerHour] :=
  ⟨rfl, rfl, by norm_num, rfl,
    (generateRegimenBaseSchedule_interval_spec regC2 0 6 rfl rfl
      (by norm_num)).2.2.2.2.2 rfl rfl⟩

/-- C3: for a times-per-day regimen with `timesPerDay = k > 0`, exactly k instants
are generated per day, instant i being 07:00 + i·(15h/k), all within
[07:00, 22:00); for k = 3 the instants are 07:00, 12:00, 17:00. -/
theorem generateRegimenBaseSchedule_timesPerDay_spec (regimen : Regimen)
    (date : Time) (k : ℕ) (hfreq : regimen.frequency = Frequency.timesPerDay)
    (htpd : regimen.timesPerDay = some k) (hk : 0 < k) :
    generateRegimenBaseSchedule regimen date =
        (List.range k).map (fun (i : ℕ) =>
          startOfDay date + 7 * msPerHour + (i : ℚ) * (15 * msPerHour / (k : ℚ)))
      ∧ (generateRegimenBaseSchedule regimen date).length = k
      ∧ (∀ t ∈ generateRegimenBaseSchedule regimen date,
          startOfDay date + 7 * msPerHour ≤ t ∧ t < startOfDay date + 22 * msPerHour)
      ∧ (k = 3 → generateRegimenBaseSchedule regimen date =
          [startOfDay date + 7 * msPerHour, startOfDay date + 12 * msPerHour,
           startOfDay date + 17 * msPerHour]) := by
  have heq := generate_tpd_eq regimen date k hfreq htpd hk
  have hk0 : ((k : ℚ)) ≠ 0 := by exact_mod_cast hk.ne.symm
  have hmph : (0 : ℚ) < msPerHour := by norm_num [msPerHour]
  refine ⟨?_, ?_, ?_, ?_⟩
  · rw [heq]
    apply List.map_congr_left
    intro i _
    norm_num
  · rw [heq]
    simp
  · intro t ht
    rw [heq] at ht
    obtain ⟨i, hi, rfl⟩ := List.mem_map.mp ht
    have hik : (i : ℚ) < (k : ℚ) := by exact_mod_cast List.mem_range.mp hi
    have hX : (0 : ℚ) < (22 - 7) * msPerHour / (k : ℚ) := by
      apply div_pos (by norm_num [msPerHour])
      exact_mod_cast hk
    constructor
    · have := mul_nonneg (Nat.cast_nonneg (α := ℚ) i) hX.le
      linarith
    · have h1 : (i : ℚ) * ((22 - 7) * msPerHour / (k : ℚ))
          < (k : ℚ) * ((22 - 7) * msPerHour / (k : ℚ)) :=
        mul_lt_mul_of_pos_right hik hX
      have h2 : (k : ℚ) * ((22 - 7) * msPerHour / (k : ℚ)) = (22 - 7) * msPerHour := by
        rw [mul_comm, div_mul_cancel₀ _ hk0]
      have h3 : (7 : ℚ) * msPerHour + (22 - 7) * msPerHour = 22 * msPerHour := by ring
      linarith
  · intro hk3
    subst hk3
    rw [heq, show List.range 3 = [0, 1, 2] from rfl]
    simp only [List.map_cons, List.map_nil, List.cons.injEq, and_true]
    norm_num [msPerHour]
    constructor <;> ring

/-- C3 witness: a 3x/day regimen generates, for day 0, exactly the instants 07:00,
12:00, 17:00. -/
theorem generateRegimenBaseSchedule_timesPerDay_spec_witness :
    regC3.frequency = Frequency.timesPerDay ∧ regC3.timesPerDay = some 3
      ∧ 0 < 3
      ∧ generateRegimenBaseSchedule regC3 0 =
          [startOfDay 0 + 7 * msPerHour, startOfDay 0 + 12 * msPerHour,
           startOfDay 0 + 17 * msPerHour] :=
  ⟨rfl, rfl, by norm_num,
    (generateRegimenBaseSchedule_timesPerDay_spec regC3 0 3 rfl rfl
      (by norm_num)).2.2.2 rfl⟩

/-- C4 (code bug): `shouldTakeOnDate` compares `dayNames[date.getDay()]` — a weekday
NAME such as "sunday" — against the stored `daysOfWeek` entries, which every
producer in the app (`AddRegimenScreen`, `AddMedicationScreen`,
`MedicationDetailScreen`) writes and reads as weekday-index strings "0".."6". A
weekly regimen listing all seven weekday indices is therefore excluded on every
weekday, although the claim (and the producers' encoding) say it must be included;
only a never-produced weekday-name entry would ever match. -/
theorem shouldTakeOnDate_weekday_index_mismatch :
    (∀ d : Fin 7, shouldTakeOnDate regC4AllIdx d = false)
      ∧ shouldTakeOnDate regC4Name 0 = true := by
  decide

/-- C9: the earliest/latest clamping step of
`MealTimingService.calculateMedicationTime` is idempotent — re-applying it to an
already-clamped candidate time yields the same time (for every combination of
present/absent bounds, crossed bounds included). -/
theorem applyTimeClamps_idempotent (c : Constraints) (date t : Time) :
    applyTimeClamps c date (applyTimeClamps c date t) = applyTimeClamps c date t := by
  rcases hE : c.earliestTime with - | hm <;> rcases hL : c.latestTime with - | hm2 <;>
    simp only [applyTimeClamps, clampToEarliest, clampToLatest, hE, hL] <;>
    split_ifs <;> linarith

/-- C10: `DatabaseService.updateRegimen` with an all-absent patch leaves the row —
`updatedAt` included — completely unchanged (it returns before issuing any SQL);
a non-empty patch rewrites exactly the provided fields plus `updatedAt`, leaving
every other column (including `id`, `medicationId`, `createdAt`) untouched. -/
theorem applyUpdateRegimen_frame (row : Regimen) (p : RegimenPatch) (now : Time) :
    applyUpdateRegimen row p now =
      if p.isEmpty then row
      else
        { id := row.id, medicationId := row.medicationId,
          doseAmount := p.doseAmount.getD row.doseAmount,
          frequency := p.frequency.getD row.frequency,
          daysOfWeek := if p.daysOfWeek.isSome then p.daysOfWeek else row.daysOfWeek,
          intervalHours := if p.intervalHours.isSome then p.intervalHours
            else row.intervalHours,
          timesPerDay := if p.timesPerDay.isSome then p.timesPerDay
            else row.timesPerDay,
          startDate := p.startDate.getD row.startDate,
          endDate := if p.endDate.isSome then p.endDate else row.endDate,
          prn := p.prn.getD row.prn,
          prnMaxPerDay := if p.prnMaxPerDay.isSome then p.prnMaxPerDay
            else row.prnMaxPerDay,
          lastTakenAt := if p.lastTakenAt.isSome then p.lastTakenAt
            else row.lastTakenAt,
          createdAt := row.createdAt, updatedAt := now } := by
  rcases p with ⟨da, fq, dw, ih, tpd, sd, ed, pr, pm, lt⟩
  rcases da with - | da <;> rcases fq with - | fq <;> rcases dw with - | dw <;>
    rcases ih with - | ih <;> rcases tpd with - | tpd <;> rcases sd with - | sd <;>
    rcases ed with - | ed <;> rcases pr with - | pr <;> rcases pm with - | pm <;>
    rcases lt with - | lt <;> rfl

theorem nextDueTimeOf_eq (db : DB) (medication : Medication) (regimen : Regimen)
    (now : Time) :
    nextDueTimeOf db medication regimen now =
      if regimen.lastTakenAt.isNone then
        calculateInitialDoseTime regimen (getConstraintsByRegimen db regimen.id) now
      else calculateIntervalBasedNextDose regimen now := by
  unfold nextDueTimeOf calculateNextDoseForRegimen
  cases hfind : (getConstraintsByRegimen db regimen.id).find? (fun c =>
      c.withFood || !(c.noFoodBeforeMinutes.getD 0 == 0)
        || !(c.afterFoodMinutes.getD 0 == 0)) with
  | none => simp [checkMealConstraints, hfind]
  | some c =>
      cases hup : db.userPrefs with
      | none => simp [checkMealConstraints, hfind, hup]
      | some u => simp [checkMealConstraints, hfind, hup]

/-- C1: `markPillTaken(r, T)` appends exactly one DoseEvent with regimenId = r,
status = taken, scheduledAt = T, takenAt = T; it sets the regimen's `lastTakenAt`
to exactly T (stamping `updatedAt` with the write clock); and afterwards, for an
interval regimen with `intervalHours = h > 0`, the recomputed next-due time is
T + h hours — for every recomputation clock `now2`, i.e. regardless of whether T
was earlier or later than the previously computed due time. -/
theorem markPillTaken_spec (db : DB) (regimenId : String) (T now : Time)
    (regimen : Regimen) (h : ℚ) (hfreq : regimen.frequency = Frequency.interval)
    (hih : regimen.intervalHours = some h) (hpos : 0 < h) :
    (markPillTaken db regimenId T now).1.doseEvents =
        db.doseEvents ++
          [{ regimenId := regimenId, scheduledAt := T, takenAt := some T,
             status := DoseStatus.taken, reason := some "user-marked" }]
      ∧ (regimen ∈ db.regimens → regimen.id = regimenId →
          { regimen with lastTakenAt := some T, updatedAt := now }
            ∈ (markPillTaken db regimenId T now).1.regimens)
      ∧ (∀ (medication : Medication) (now2 : Time),
          nextDueTimeOf (markPillTaken db regimenId T now).1 medication
              { regimen with lastTakenAt := some T, updatedAt := now } now2
            = T + h * msPerHour) := by
  refine ⟨rfl, ?_, ?_⟩
  · intro hmem hid
    have hf : ({ regimen with lastTakenAt := some T, updatedAt := now } : Regimen)
        = if regimen.id == regimenId then
            applyUpdateRegimen regimen (lastTakenPatch T) now
          else regimen := by
      rw [if_pos (by simp [hid])]
      rfl
    rw [hf]
    exact List.mem_map_of_mem _ hmem
  · intro medication now2
    rw [nextDueTimeOf_eq]
    simp only [calculateIntervalBasedNextDose, hih]
    simp [hpos.ne']

/-- C1 witness: marking `regC1` (interval, 8h) taken at T = 14:00 epoch-day-0 makes
the recomputed next-due time T + 8h. -/
theorem markPillTaken_spec_witness :
    regC1.frequency = Frequency.interval ∧ regC1.intervalHours = some 8
      ∧ (0 : ℚ) < 8 ∧ regC1 ∈ dbC1.regimens ∧ regC1.id = "r1"
      ∧ (markPillTaken dbC1 "r1" 50400000 1).1.doseEvents =
          [{ regimenId := "r1", scheduledAt := 50400000, takenAt := some 50400000,
             status := DoseStatus.taken, reason := some "user-marked" }]
      ∧ nextDueTimeOf (markPillTaken dbC1 "r1" 50400000 1).1 baseMedication
          { regC1 with lastTakenAt := some 50400000, updatedAt := 1 } 2
          = 50400000 + 8 * msPerHour :=
  ⟨rfl, rfl, by norm_num, by exact List.Mem.head _, rfl,
    (markPillTaken_spec dbC1 "r1" 50400000 1 regC1 8 rfl rfl (by norm_num)).1,
    (markPillTaken_spec dbC1 "r1" 50400000 1 regC1 8 rfl rfl
      (by norm_num)).2.2 baseMedication 2⟩

/-- C5 (code bug): `markPillTaken` persists the regimen update and the dose event, in
that order, and nothing else — the follow-on reminder scheduling never happens,
because `scheduleNextNotifications` calls `databaseService.getRegimen` (and then
`notificationService.scheduleNotification`), methods neither service defines, so it
throws and its own `catch` swallows the error. The third conjunct shows what the
body of `scheduleNextNotifications` was meant to request at the same input: a
next-dose reminder at T + 8h and a can-eat reminder at T + 30min. -/
theorem markPillTaken_schedules_no_reminders :
    ((markPillTaken dbC5 "r1" 50400000 1).2.filter Effect.isNotify = [])
      ∧ (markPillTaken dbC5 "r1" 50400000 1).2 =
          [Effect.persistRegimenUpdate "r1" (lastTakenPatch 50400000),
           Effect.persistDoseEvent
             { regimenId := "r1", scheduledAt := 50400000,
               takenAt := some 50400000, status := DoseStatus.taken,
               reason := some "user-marked" }]
      ∧ scheduleNextNotificationsIntended (markPillTaken dbC5 "r1" 50400000 1).1
            "r1" 50400000 =
          [Effect.notify
             { id := "next-dose-r1", scheduledFor := 50400000 + 8 * msPerHour,
               dataRegimenId := "r1", dataType := "next_dose" },
           Effect.notify
             { id := "can-eat-r1",
               scheduledFor := 50400000 + (30 : ℕ) * msPerMinute,
               dataRegimenId := "r1", dataType := "can_eat" }] := by
  refine ⟨rfl, rfl, rfl⟩

/-- C6 (amended): a previously-taken regimen without `intervalHours` gets next-due
time `now` — the bare fallback, not the never-taken logic of the claim; the fallback
agrees with the never-taken logic only for regimens without `timesPerDay` (whose
initial-dose logic is itself `now`). -/
theorem takenNonInterval_nextDue_now (db : DB) (medication : Medication)
    (regimen : Regimen) (now : Time) (lt : Time)
    (hlt : regimen.lastTakenAt = some lt) (hih : regimen.intervalHours = none) :
    nextDueTimeOf db medication regimen now = now
      ∧ (regimen.timesPerDay = none →
          calculateInitialDoseTime regimen (getConstraintsByRegimen db regimen.id)
            now = now) := by
  constructor
  · rw [nextDueTimeOf_eq]
    simp [hlt, calculateIntervalBasedNextDose, hih]
  · intro htpd
    simp [calculateInitialDoseTime, htpd]

/-- C6 counterexample: `regC6` (3x/day, previously taken, no `intervalHours`) at
now = 08:30 gets next-due time 08:30 (= now), while its never-taken logic yields the
12:00 slot — the two differ, so taken times-per-day regimens do NOT reuse the
never-taken logic. -/
theorem takenTimesPerDay_counterexample :
    nextDueTimeOf dbC6 baseMedication regC6 30600000 = 30600000
      ∧ calculateInitialDoseTime regC6 (getConstraintsByRegimen dbC6 regC6.id)
          30600000 = 43200000
      ∧ nextDueTimeOf dbC6 baseMedication regC6 30600000
          ≠ calculateInitialDoseTime regC6 (getConstraintsByRegimen dbC6 regC6.id)
              30600000 := by
  have hhod : hourOfDay (30600000 : ℚ) = 8 := by
    unfold hourOfDay
    rw [show ⌊(30600000 : ℚ) / msPerHour⌋ = 8 by
      rw [Int.floor_eq_iff] <;> norm_num [msPerHour]]
    norm_num
  have hsod : startOfDay (30600000 : ℚ) = 0 := by
    unfold startOfDay
    rw [show ⌊(30600000 : ℚ) / msPerDay⌋ = 0 by
      rw [Int.floor_eq_iff] <;> norm_num [msPerDay]]
    norm_num
  have htpdv : calculateTimesPerDayNextDose 3 30600000 = 43200000 := by
    simp only [calculateTimesPerDayNextDose, hhod]
    rw [show List.range 3 = [0, 1, 2] from rfl,
      List.find?_cons_of_neg _ (by norm_num),
      List.find?_cons_of_pos _ (by norm_num)]
    rw [if_neg (by push_cast; norm_num)]
    rw [hsod, show ⌊(7 + ((1 : ℕ) : ℚ) * ((22 - 7) / ((3 : ℕ) : ℚ)))⌋ = 12 by
      rw [Int.floor_eq_iff] <;> norm_num]
    push_cast
    norm_num [msPerHour, msPerMinute]
  have h1 : nextDueTimeOf dbC6 baseMedication regC6 30600000 = 30600000 := by
    rw [nextDueTimeOf_eq]
    simp [show regC6.lastTakenAt = some 0 from rfl, calculateIntervalBasedNextDose,
      show regC6.intervalHours = none from rfl]
  have h2 : calculateInitialDoseTime regC6 (getConstraintsByRegimen dbC6 regC6.id)
      30600000 = 43200000 := by
    simp only [calculateInitialDoseTime, show regC6.timesPerDay = some 3 from rfl]
    rw [if_neg (by norm_num)]
    exact htpdv
  refine ⟨h1, h2, ?_⟩
  rw [h1, h2]
  norm_num

/-- C6 witness: `regC6` has `lastTakenAt` set and no `intervalHours`, and its
computed next-due time at now = 123 is 123. -/
theorem takenNonInterval_nextDue_now_witness :
    regC6.lastTakenAt = some 0 ∧ regC6.intervalHours = none
      ∧ nextDueTimeOf dbC6 baseMedication regC6 123 = 123 :=
  ⟨rfl, rfl,
    (takenNonInterval_nextDue_now dbC6 baseMedication regC6 123 0 rfl rfl).1⟩

/-- C7 (amended): `getTodaysPills` returns exactly the calculations whose next-due
time is at or before end-of-today — with NO lower bound, so regimens already overdue
(next-due strictly before now) are included — sorted ascending by next-due time. -/
theorem getTodaysPills_spec (db : DB) (now : Time) :
    (∀ c, c ∈ getTodaysPills db now ↔
        ∃ medication ∈ getAllMedications db,
          ∃ regimen ∈ getRegimensByMedication db medication.id,
            c = calculateNextDoseForRegimen db medication regimen now
              ∧ c.nextDueTime ≤ endOfDayOf now)
      ∧ List.Pairwise (fun a b => a.nextDueTime ≤ b.nextDueTime)
          (getTodaysPills db now) := by
  constructor
  · intro c
    simp only [getTodaysPills, List.mem_mergeSort, List.mem_flatMap,
      List.mem_filter, List.mem_map, decide_eq_true_eq]
    constructor
    · rintro ⟨medication, hmed, ⟨⟨regimen, hreg, rfl⟩, hle⟩⟩
      exact ⟨medication, hmed, regimen, hreg, rfl, hle⟩
    · rintro ⟨medication, hmed, regimen, hreg, rfl, hle⟩
      exact ⟨medication, hmed, ⟨⟨regimen, hreg, rfl⟩, hle⟩⟩
  · simp only [getTodaysPills]
    refine List.Pairwise.imp ?_ (List.sorted_mergeSort ?_ ?_ _)
    · intro a b hab
      exact of_decide_eq_true hab
    · intro a b c hab hbc
      simp only [decide_eq_true_eq] at *
      exact le_trans hab hbc
    · intro a b
      simp only [Bool.or_eq_true, decide_eq_true_eq]
      exact le_total _ _

/-- C7 counterexample: at now = 02:00 on epoch day 0, `regC7` has next-due time
01:00 — strictly before now — yet `getTodaysPills` returns it (the filter has no
lower bound), so the claimed interval [now, end-of-today] is wrong. -/
theorem getTodaysPills_counterexample :
    (getTodaysPills dbC7 7200000).map (fun c => c.nextDueTime) = [3600000]
      ∧ (3600000 : ℚ) < 7200000 := by
  have hend : endOfDayOf (7200000 : ℚ) = 86399999 := by
    unfold endOfDayOf startOfDay
    rw [show ⌊(7200000 : ℚ) / msPerDay⌋ = 0 by
      rw [Int.floor_eq_iff] <;> norm_num [msPerDay]]
    norm_num
  have hdue : (calculateNextDoseForRegimen dbC7 { baseMedication with id := "m1" }
      regC7 7200000).nextDueTime = 3600000 := by
    rw [show (calculateNextDoseForRegimen dbC7 { baseMedication with id := "m1" }
        regC7 7200000).nextDueTime
      = nextDueTimeOf dbC7 { baseMedication with id := "m1" } regC7 7200000 from rfl]
    rw [nextDueTimeOf_eq]
    simp [show regC7.lastTakenAt = some 0 from rfl, calculateIntervalBasedNextDose,
      show regC7.intervalHours = some 1 from rfl, msPerHour]
  have hstep : ((getAllMedications dbC7).flatMap (fun medication =>
      ((getRegimensByMedication dbC7 medication.id).map (fun regimen =>
          calculateNextDoseForRegimen dbC7 medication regimen 7200000)).filter
        (fun c => decide (c.nextDueTime ≤ endOfDayOf 7200000))))
      = List.filter (fun c => decide (c.nextDueTime ≤ endOfDayOf 7200000))
          [calculateNextDoseForRegimen dbC7 { baseMedication with id := "m1" }
            regC7 7200000] ++ [] := rfl
  have hc : getTodaysPills dbC7 7200000
      = [calculateNextDoseForRegimen dbC7 { baseMedication with id := "m1" }
          regC7 7200000] := by
    simp only [getTodaysPills]
    rw [hstep, List.append_nil, List.filter_cons, hdue, hend]
    norm_num [List.mergeSort_singleton]
  constructor
  · rw [hc, List.map_cons, List.map_nil, hdue]
  · norm_num

/-- C8 (amended): `lastTakenAt` moves forward under mark-taken provided the taken
timestamp is not earlier than the regimen's current `lastTakenAt` (as with the
single call site, which always passes the current clock time); the code itself does
not enforce this, and a backdated timestamp moves `lastTakenAt` backward (see the
counterexample). -/
theorem markPillTaken_lastTakenAt_monotone (db : DB) (regimenId : String)
    (T now : Time)
    (hmono : ∀ r ∈ db.regimens, r.id = regimenId →
        ∀ t0, r.lastTakenAt = some t0 → t0 ≤ T) :
    List.Forall₂ (fun old new => ∀ t0, old.lastTakenAt = some t0 →
        ∃ t1, new.lastTakenAt = some t1 ∧ t0 ≤ t1)
      db.regimens (markPillTaken db regimenId T now).1.regimens := by
  have hreg : (markPillTaken db regimenId T now).1.regimens
      = db.regimens.map (fun r =>
          if r.id == regimenId then applyUpdateRegimen r (lastTakenPatch T) now
          else r) := rfl
  rw [hreg, List.forall₂_map_right_iff, List.forall₂_same]
  intro r hr
  rcases eq_or_ne r.id regimenId with hid | hid
  · rw [if_pos (by simp [hid])]
    intro t0 ht0
    exact ⟨T, rfl, hmono r hr hid t0 ht0⟩
  · rw [if_neg (by simp [hid])]
    intro t0 ht0
    exact ⟨t0, ht0, le_refl t0⟩

/-- C8 counterexample: `regC8` has `lastTakenAt` = 1000; marking it taken with the
backdated timestamp 500 rewrites `lastTakenAt` to 500 < 1000 — the invariant that a
set `lastTakenAt` never moves backward is not enforced by the code. -/
theorem markPillTaken_backdated_counterexample :
    lastTakenAtOf dbC8 "r8" = some 1000
      ∧ lastTakenAtOf (markPillTaken dbC8 "r8" 500 2000).1 "r8" = some 500
      ∧ ¬ ((1000 : ℚ) ≤ 500) := by
  refine ⟨by decide, by decide, by norm_num⟩

/-- C8 witness: with a timestamp (5000) not earlier than the stored `lastTakenAt`
(1000), mark-taken leaves every regimen's `lastTakenAt` at or above its previous
value. -/
theorem markPillTaken_lastTakenAt_monotone_witness :
    List.Forall₂ (fun old new => ∀ t0, old.lastTakenAt = some t0 →
        ∃ t1, new.lastTakenAt = some t1 ∧ t0 ≤ t1)
      dbC8.regimens (markPillTaken dbC8 "r8" 5000 6000).1.regimens :=
  markPillTaken_lastTakenAt_monotone dbC8 "r8" 5000 6000 (by
    intro r hr hid t0 ht0
    have hr1 : r ∈ [regC8] := hr
    have hr8 : r = regC8 := by simpa using hr1
    subst hr8
    have h1000 : some (1000 : ℚ) = some t0 := ht0
    have ht : (1000 : ℚ) = t0 := Option.some.inj h1000
    rw [← ht]
    norm_num)

end PillPilot
